import Mathlib

set_option maxRecDepth 100000

/-!
Verification development for the srs secret vault (Rust).

The development shallowly embeds the encrypted-record engine of the
repository: the envelope cipher (src/crypto.rs), key derivation, and the
encrypted token store (src/storage.rs).

Modelling conventions:
- Rust byte slices are `List Nat` with every element below 256; the u8
  truncation of the external block cipher output is written `% 256`.
- The external AES-256 block function (crate aes_gcm) is a parameter
  `E : List Nat → List Nat → List Nat` (key, 16-byte block input, 16-byte
  block output); the GCM mode built on top of it (counter-mode keystream,
  GHASH-style tag) is defined concretely below.
- The external base64 crate (engine general_purpose STANDARD) is modelled
  by a concrete standard base64 encoder/decoder with padding.
- Strings crossing the cipher boundary travel as their UTF-8 bytes; the
  Rust String::from_utf8 check is the validator `isValidUtf8`.
- Randomness (the fresh nonce of encrypt) is passed as an explicit
  argument, universally quantified in the theorems.
-/

/-! ### Base64 (crate base64, engine STANDARD): model -/

/-- Sextet value to base64 alphabet code (A-Z, a-z, 0-9, plus, slash). -/
def encB64 (s : Nat) : Nat :=
  if s < 26 then 65 + s
  else if s < 52 then 71 + s
  else if s < 62 then s - 4
  else if s = 62 then 43 else 47

/-- Base64 alphabet code back to sextet value; none for codes outside the
alphabet (including the pad code 61). -/
def decB64 (c : Nat) : Option Nat :=
  if 65 ≤ c ∧ c ≤ 90 then some (c - 65)
  else if 97 ≤ c ∧ c ≤ 122 then some (c - 97 + 26)
  else if 48 ≤ c ∧ c ≤ 57 then some (c - 48 + 52)
  else if c = 43 then some 62
  else if c = 47 then some 63
  else none

/-- Standard base64 encoding with padding, bytes to character codes. -/
def b64encode : List Nat → List Nat
  | [] => []
  | [b1] => [encB64 (b1 / 4), encB64 (b1 % 4 * 16), 61, 61]
  | [b1, b2] =>
      [encB64 (b1 / 4), encB64 (b1 % 4 * 16 + b2 / 16), encB64 (b2 % 16 * 4), 61]
  | b1 :: b2 :: b3 :: rest =>
      encB64 (b1 / 4) :: encB64 (b1 % 4 * 16 + b2 / 16) ::
      encB64 (b2 % 16 * 4 + b3 / 64) :: encB64 (b3 % 64) :: b64encode rest

/-- Standard base64 decoding with padding, character codes to bytes; strict
about padding position and about zero trailing bits, as the STANDARD engine
of the base64 crate is. -/
def b64decode : List Nat → Option (List Nat)
  | [] => some []
  | c1 :: c2 :: c3 :: c4 :: rest =>
    match decB64 c1, decB64 c2 with
    | some s1, some s2 =>
      if c3 = 61 then
        if c4 = 61 ∧ rest = [] ∧ s2 % 16 = 0 then some [s1 * 4 + s2 / 16] else none
      else
        match decB64 c3 with
        | some s3 =>
          if c4 = 61 then
            if rest = [] ∧ s3 % 4 = 0 then
              some [s1 * 4 + s2 / 16, s2 % 16 * 16 + s3 / 4]
            else none
          else
            match decB64 c4, b64decode rest with
            | some s4, some bs =>
                some ((s1 * 4 + s2 / 16) :: (s2 % 16 * 16 + s3 / 4) :: (s3 % 4 * 64 + s4) :: bs)
            | _, _ => none
        | none => none
    | _, _ => none
  | _ => none

theorem decB64_encB64 : ∀ s < 64, decB64 (encB64 s) = some s := by decide

theorem encB64_ne_pad (s : Nat) : encB64 s ≠ 61 := by
  unfold encB64
  split
  · omega
  · split
    · omega
    · split
      · omega
      · split <;> omega

theorem b64decode_b64encode :
    ∀ (l : List Nat), (∀ b ∈ l, b < 256) → b64decode (b64encode l) = some l := by
  intro l
  induction l using b64encode.induct with
  | case1 => intro _; rfl
  | case2 b1 =>
    intro h
    have hb1 : b1 < 256 := h b1 (by simp)
    simp only [b64encode, b64decode]
    rw [decB64_encB64 (b1 / 4) (by omega), decB64_encB64 (b1 % 4 * 16) (by omega)]
    simp [show b1 % 4 * 16 % 16 = 0 by omega]
    all_goals omega
  | case3 b1 b2 =>
    intro h
    have hb1 : b1 < 256 := h b1 (by simp)
    have hb2 : b2 < 256 := h b2 (by simp)
    simp only [b64encode, b64decode]
    rw [decB64_encB64 (b1 / 4) (by omega),
        decB64_encB64 (b1 % 4 * 16 + b2 / 16) (by omega),
        decB64_encB64 (b2 % 16 * 4) (by omega)]
    simp [encB64_ne_pad, show b2 % 16 * 4 % 4 = 0 by omega]
    all_goals omega
  | case4 b1 b2 b3 rest ih =>
    intro h
    have hb1 : b1 < 256 := h b1 (by simp)
    have hb2 : b2 < 256 := h b2 (by simp)
    have hb3 : b3 < 256 := h b3 (by simp)
    have ih2 := ih (fun b hb => h b (by simp [hb]))
    simp only [b64encode, b64decode]
    rw [decB64_encB64 (b1 / 4) (by omega),
        decB64_encB64 (b1 % 4 * 16 + b2 / 16) (by omega),
        decB64_encB64 (b2 % 16 * 4 + b3 / 64) (by omega),
        decB64_encB64 (b3 % 64) (by omega), ih2]
    simp [encB64_ne_pad]
    all_goals omega

/-! ### UTF-8 (Rust str::as_bytes and String::from_utf8): model -/

/-- UTF-8 encoding of one Unicode scalar value. -/
def utf8EncodeChar (c : Nat) : List Nat :=
  if c < 128 then [c]
  else if c < 2048 then [192 + c / 64, 128 + c % 64]
  else if c < 65536 then [224 + c / 4096, 128 + c / 64 % 64, 128 + c % 64]
  else [240 + c / 262144, 128 + c / 4096 % 64, 128 + c / 64 % 64, 128 + c % 64]

/-- UTF-8 bytes of a string (Rust str::as_bytes). -/
def utf8Encode (s : String) : List Nat :=
  s.data.flatMap (fun c => utf8EncodeChar c.toNat)

/-- Continuation byte test. -/
def isCont (b : Nat) : Bool := 128 ≤ b ∧ b ≤ 191

/-- Validator for UTF-8 byte sequences, mirroring the acceptance of Rust
String::from_utf8 (rejects overlong forms, surrogates and values above
0x10FFFF, exactly as the standard byte-range table does). -/
def isValidUtf8 : List Nat → Bool
  | [] => true
  | b :: rest =>
    if b < 128 then isValidUtf8 rest
    else if 194 ≤ b ∧ b ≤ 223 then
      match rest with
      | b1 :: rest2 => isCont b1 && isValidUtf8 rest2
      | [] => false
    else if b = 224 then
      match rest with
      | b1 :: b2 :: rest2 =>
          (decide (160 ≤ b1 ∧ b1 ≤ 191)) && isCont b2 && isValidUtf8 rest2
      | _ => false
    else if (225 ≤ b ∧ b ≤ 236) ∨ b = 238 ∨ b = 239 then
      match rest with
      | b1 :: b2 :: rest2 => isCont b1 && isCont b2 && isValidUtf8 rest2
      | _ => false
    else if b = 237 then
      match rest with
      | b1 :: b2 :: rest2 =>
          (decide (128 ≤ b1 ∧ b1 ≤ 159)) && isCont b2 && isValidUtf8 rest2
      | _ => false
    else if b = 240 then
      match rest with
      | b1 :: b2 :: b3 :: rest2 =>
          (decide (144 ≤ b1 ∧ b1 ≤ 191)) && isCont b2 && isCont b3 && isValidUtf8 rest2
      | _ => false
    else if 241 ≤ b ∧ b ≤ 243 then
      match rest with
      | b1 :: b2 :: b3 :: rest2 => isCont b1 && isCont b2 && isCont b3 && isValidUtf8 rest2
      | _ => false
    else if b = 244 then
      match rest with
      | b1 :: b2 :: b3 :: rest2 =>
          (decide (128 ≤ b1 ∧ b1 ≤ 143)) && isCont b2 && isCont b3 && isValidUtf8 rest2
      | _ => false
    else false

/-! ### GCM mode over an abstract block function: model of crate aes_gcm -/

/-- Big-endian byte list to natural number. -/
def bytesToNat (l : List Nat) : Nat := l.foldl (fun acc b => acc * 256 + b) 0

/-- 128-bit value to its 16 big-endian bytes. -/
def natToBytes16 (n : Nat) : List Nat :=
  [n / 2 ^ 120 % 256, n / 2 ^ 112 % 256, n / 2 ^ 104 % 256, n / 2 ^ 96 % 256,
   n / 2 ^ 88 % 256, n / 2 ^ 80 % 256, n / 2 ^ 72 % 256, n / 2 ^ 64 % 256,
   n / 2 ^ 56 % 256, n / 2 ^ 48 % 256, n / 2 ^ 40 % 256, n / 2 ^ 32 % 256,
   n / 2 ^ 24 % 256, n / 2 ^ 16 % 256, n / 2 ^ 8 % 256, n % 256]

/-- 32-bit big-endian counter bytes appended to the 12-byte nonce. -/
def ctr32 (i : Nat) : List Nat :=
  [i / 2 ^ 24 % 256, i / 2 ^ 16 % 256, i / 2 ^ 8 % 256, i % 256]

/-- Doubling in the 128-bit GHASH field. -/
def gfDouble (x : Nat) : Nat :=
  if x * 2 < 2 ^ 128 then x * 2 else (x * 2 - 2 ^ 128) ^^^ 135

/-- Iterated carry-less multiply-accumulate over the bits of the first
argument. -/
def gfMulGo : Nat → Nat → Nat → Nat → Nat
  | 0, _, _, acc => acc
  | n + 1, a, b, acc =>
      gfMulGo n (a / 2) (gfDouble b) (if a % 2 = 1 then acc ^^^ b else acc)

/-- Multiplication in the 128-bit GHASH field. -/
def gfMul (a b : Nat) : Nat := gfMulGo 128 a b 0

/-- GHASH-style universal hash over 128-bit blocks. -/
def ghash (h : Nat) (blocks : List Nat) : Nat :=
  blocks.foldl (fun y x => gfMul (y ^^^ x) h) 0

/-- Zero padding to a whole number of 16-byte blocks. -/
def padZeros (l : List Nat) : List Nat :=
  l ++ List.replicate ((16 - l.length % 16) % 16) 0

/-- Split a byte list into 128-bit block values (fuel-driven structural
recursion; the fuel is the list length, enough for every 16-byte step). -/
def toBlocksGo : Nat → List Nat → List Nat
  | 0, _ => []
  | _, [] => []
  | fuel + 1, b :: l =>
      bytesToNat ((b :: l).take 16) :: toBlocksGo fuel ((b :: l).drop 16)

/-- Split a byte list into 128-bit block values. -/
def toBlocks (l : List Nat) : List Nat := toBlocksGo l.length l

/-- Counter-mode keystream blocks: block m is the (%256-truncated) block
cipher output on nonce plus counter i + m. -/
def keystreamBlocks (E : List Nat → List Nat → List Nat)
    (key nonce : List Nat) : Nat → Nat → List Nat
  | 0, _ => []
  | m + 1, i =>
      (E key (nonce ++ ctr32 i)).map (fun b => b % 256) ++
      keystreamBlocks E key nonce m (i + 1)

/-- First n keystream bytes; GCM starts bulk encryption at counter 2. -/
def keystream (E : List Nat → List Nat → List Nat)
    (key nonce : List Nat) (n : Nat) : List Nat :=
  (keystreamBlocks E key nonce (n / 16 + 1) 2).take n

/-- Bytewise xor, truncating to the shorter list. -/
def zipXor (a b : List Nat) : List Nat := List.zipWith (fun x y => x ^^^ y) a b

/-- GCM-style authentication tag over the ciphertext: GHASH under the
hash subkey (block cipher on the zero block), finalized with the length
block and masked with the counter-1 block. -/
def tagFn (E : List Nat → List Nat → List Nat)
    (key nonce ct : List Nat) : List Nat :=
  let h := bytesToNat ((E key (List.replicate 16 0)).map (fun b => b % 256))
  let s := ghash h (toBlocks (padZeros ct) ++ [ct.length * 8])
  let ej0 := bytesToNat ((E key (nonce ++ ctr32 1)).map (fun b => b % 256))
  natToBytes16 (s ^^^ ej0)

/-- AEAD encryption (aes_gcm crate, encrypt): ciphertext body followed by
the 16-byte tag. -/
def aeadEncrypt (E : List Nat → List Nat → List Nat)
    (key nonce pt : List Nat) : List Nat :=
  let body := zipXor pt (keystream E key nonce pt.length)
  body ++ tagFn E key nonce body

/-- AEAD decryption (aes_gcm crate, decrypt): splits off the 16-byte tag,
recomputes it over the body, and unmasks the body on success. -/
def aeadDecrypt (E : List Nat → List Nat → List Nat)
    (key nonce ct : List Nat) : Option (List Nat) :=
  if ct.length < 16 then none
  else
    let body := ct.take (ct.length - 16)
    let tag := ct.drop (ct.length - 16)
    if tagFn E key nonce body = tag then
      some (zipXor body (keystream E key nonce body.length))
    else none

/-! ### Envelope cipher (src/crypto.rs): CryptoManager -/

/-- Error kinds of the cipher, one per error site of crypto.rs decrypt:
base64 failure (Store possibly corrupt), short data (Invalid encrypted
data found), AEAD failure (Error occurred during decryption), UTF-8
failure (Error occurred during reconstruction). -/
inductive CryptoError where
  | corruptStore
  | malformedEnvelope
  | authenticationFailure
  | encodingFailure
deriving DecidableEq, Repr

/-- CryptoManager of crypto.rs: the 256-bit master key, together with the
block function parameter standing for the external AES-256 primitive. -/
structure CryptoManager where
  E : List Nat → List Nat → List Nat
  master_key : List Nat

/-- encrypt of crypto.rs: fresh nonce (explicit argument here), AEAD under
the master key, nonce prepended, base64 encoded. -/
def CryptoManager.encrypt (cm : CryptoManager)
    (nonce_bytes plaintext : List Nat) : List Nat :=
  b64encode (nonce_bytes ++ aeadEncrypt cm.E cm.master_key nonce_bytes plaintext)

/-- decrypt of crypto.rs: base64 decode, 12-byte minimum length check,
split of the nonce, AEAD decryption, UTF-8 reconstruction. -/
def CryptoManager.decrypt (cm : CryptoManager)
    (encrypted_data : List Nat) : Except CryptoError (List Nat) :=
  match b64decode encrypted_data with
  | none => .error .corruptStore
  | some encrypted_bytes =>
    if encrypted_bytes.length < 12 then .error .malformedEnvelope
    else
      match aeadDecrypt cm.E cm.master_key
          (encrypted_bytes.take 12) (encrypted_bytes.drop 12) with
      | none => .error .authenticationFailure
      | some plaintext =>
          if isValidUtf8 plaintext then .ok plaintext
          else .error .encodingFailure

/-! ### Round-trip lemmas for the cipher -/

theorem keystreamBlocks_length (E : List Nat → List Nat → List Nat)
    (key nonce : List Nat) (hE : ∀ k b, (E k b).length = 16) :
    ∀ m i, (keystreamBlocks E key nonce m i).length = 16 * m := by
  intro m
  induction m with
  | zero => intro i; rfl
  | succ m ih =>
    intro i
    simp [keystreamBlocks, List.length_append, List.length_map, hE, ih]
    ring

theorem keystream_length (E : List Nat → List Nat → List Nat)
    (key nonce : List Nat) (n : Nat) (hE : ∀ k b, (E k b).length = 16) :
    (keystream E key nonce n).length = n := by
  simp [keystream, List.length_take, keystreamBlocks_length E key nonce hE]
  omega

theorem keystreamBlocks_lt (E : List Nat → List Nat → List Nat)
    (key nonce : List Nat) :
    ∀ m i, ∀ b ∈ keystreamBlocks E key nonce m i, b < 256 := by
  intro m
  induction m with
  | zero => intro i b hb; simp [keystreamBlocks] at hb
  | succ m ih =>
    intro i b hb
    simp only [keystreamBlocks, List.mem_append, List.mem_map] at hb
    rcases hb with ⟨x, _, rfl⟩ | hb
    · omega
    · exact ih (i + 1) b hb

theorem keystream_lt (E : List Nat → List Nat → List Nat)
    (key nonce : List Nat) (n : Nat) :
    ∀ b ∈ keystream E key nonce n, b < 256 := by
  intro b hb
  exact keystreamBlocks_lt E key nonce (n / 16 + 1) 2 b (List.take_subset _ _ hb)

theorem natToBytes16_lt (n : Nat) : ∀ b ∈ natToBytes16 n, b < 256 := by
  intro b hb
  simp [natToBytes16] at hb
  rcases hb with rfl|rfl|rfl|rfl|rfl|rfl|rfl|rfl|rfl|rfl|rfl|rfl|rfl|rfl|rfl|rfl <;> omega

theorem natToBytes16_length (n : Nat) : (natToBytes16 n).length = 16 := rfl

theorem tagFn_length (E : List Nat → List Nat → List Nat)
    (key nonce ct : List Nat) : (tagFn E key nonce ct).length = 16 := by
  simp [tagFn, natToBytes16]

theorem tagFn_lt (E : List Nat → List Nat → List Nat)
    (key nonce ct : List Nat) : ∀ b ∈ tagFn E key nonce ct, b < 256 := by
  intro b hb
  exact natToBytes16_lt _ b hb

theorem zipXor_length (a b : List Nat) :
    (zipXor a b).length = min a.length b.length := by
  simp [zipXor]

theorem zipXor_lt (p : List Nat) :
    ∀ (q : List Nat), (∀ x ∈ p, x < 256) → (∀ x ∈ q, x < 256) →
      ∀ z ∈ zipXor p q, z < 256 := by
  induction p with
  | nil => intro q _ _ z hz; simp [zipXor] at hz
  | cons x p ih =>
    intro q hp hq z hz
    cases q with
    | nil => simp [zipXor] at hz
    | cons y q =>
      simp only [zipXor, List.zipWith_cons_cons, List.mem_cons] at hz
      rcases hz with rfl | hz
      · have h1 : x < 2 ^ 8 := by have := hp x (by simp); omega
        have h2 : y < 2 ^ 8 := by have := hq y (by simp); omega
        have := Nat.xor_lt_two_pow h1 h2
        omega
      · exact ih q (fun a ha => hp a (by simp [ha])) (fun a ha => hq a (by simp [ha])) z hz

theorem zipXor_zipXor (p : List Nat) :
    ∀ (ks : List Nat), p.length ≤ ks.length → zipXor (zipXor p ks) ks = p := by
  induction p with
  | nil => intro ks _; simp [zipXor]
  | cons x p ih =>
    intro ks h
    cases ks with
    | nil => simp at h
    | cons y ks =>
      simp only [List.length_cons] at h
      simp only [zipXor, List.zipWith_cons_cons, List.cons.injEq]
      exact ⟨Nat.xor_cancel_right y x, ih ks (by omega)⟩

theorem aeadDecrypt_aeadEncrypt (E : List Nat → List Nat → List Nat)
    (key nonce pt : List Nat) (hE : ∀ k b, (E k b).length = 16) :
    aeadDecrypt E key nonce (aeadEncrypt E key nonce pt) = some pt := by
  have hksl : (keystream E key nonce pt.length).length = pt.length :=
    keystream_length E key nonce pt.length hE
  have hbodyl : (zipXor pt (keystream E key nonce pt.length)).length = pt.length := by
    rw [zipXor_length, hksl]
    omega
  unfold aeadEncrypt aeadDecrypt
  simp only [List.length_append, tagFn_length, hbodyl]
  rw [if_neg (by omega)]
  rw [show pt.length + 16 - 16 = (zipXor pt (keystream E key nonce pt.length)).length by omega]
  rw [List.take_left, List.drop_left]
  rw [if_pos rfl, hbodyl]
  exact congrArg some (zipXor_zipXor pt (keystream E key nonce pt.length) (by omega))

theorem decrypt_encrypt (cm : CryptoManager) (nonce pt : List Nat)
    (hE : ∀ k b, (cm.E k b).length = 16)
    (hn12 : nonce.length = 12) (hnb : ∀ b ∈ nonce, b < 256)
    (hpt : ∀ b ∈ pt, b < 256) (hvalid : isValidUtf8 pt = true) :
    cm.decrypt (cm.encrypt nonce pt) = .ok pt := by
  have hlt : ∀ b ∈ nonce ++ aeadEncrypt cm.E cm.master_key nonce pt, b < 256 := by
    intro b hb
    rcases List.mem_append.1 hb with h | h
    · exact hnb b h
    · rcases List.mem_append.1 (by simpa [aeadEncrypt] using h) with h2 | h2
      · exact zipXor_lt pt _ hpt (keystream_lt _ _ _ _) b h2
      · exact tagFn_lt _ _ _ _ b h2
  have hdec : b64decode (b64encode (nonce ++ aeadEncrypt cm.E cm.master_key nonce pt))
      = some (nonce ++ aeadEncrypt cm.E cm.master_key nonce pt) :=
    b64decode_b64encode _ hlt
  have hlen : (nonce ++ aeadEncrypt cm.E cm.master_key nonce pt).length = pt.length + 28 := by
    rw [List.length_append, hn12]
    simp [aeadEncrypt, List.length_append, tagFn_length, zipXor_length,
      keystream_length cm.E cm.master_key nonce pt.length hE]
    omega
  have htake : (nonce ++ aeadEncrypt cm.E cm.master_key nonce pt).take 12 = nonce := by
    rw [← hn12]
    exact List.take_left _ _
  have hdrop : (nonce ++ aeadEncrypt cm.E cm.master_key nonce pt).drop 12
      = aeadEncrypt cm.E cm.master_key nonce pt := by
    rw [← hn12]
    exact List.drop_left _ _
  simp only [CryptoManager.encrypt, CryptoManager.decrypt, hdec]
  rw [if_neg (by rw [hlen]; omega)]
  simp only [htake, hdrop, aeadDecrypt_aeadEncrypt cm.E cm.master_key nonce pt hE, hvalid]
  simp

/-! ### SHA-256 (crate sha2): model -/

/-- SHA-256 state: eight 32-bit working variables. -/
abbrev Sha256State := Nat × Nat × Nat × Nat × Nat × Nat × Nat × Nat

/-- Rotation of the word w right by n of its 32 bit positions. -/
def rotr32 (n w : Nat) : Nat := (w / 2 ^ n + w % 2 ^ n * 2 ^ (32 - n)) % 2 ^ 32

/-- Bitwise complement within 32 bits. -/
def not32 (w : Nat) : Nat := 2 ^ 32 - 1 - w % 2 ^ 32

/-- The 64 round constants of SHA-256, written in decimal. -/
def sha256K : List Nat :=
  [1116352408, 1899447441, 3049323471, 3921009573, 961987163, 1508970993,
   2453635748, 2870763221, 3624381080, 310598401, 607225278, 1426881987,
   1925078388, 2162078206, 2614888103, 3248222580, 3835390401, 4022224774,
   264347078, 604807628, 770255983, 1249150122, 1555081692, 1996064986,
   2554220882, 2821834349, 2952996808, 3210313671, 3336571891, 3584528711,
   113926993, 338241895, 666307205, 773529912, 1294757372, 1396182291,
   1695183700, 1986661051, 2177026350, 2456956037, 2730485921, 2820302411,
   3259730800, 3345764771, 3516065817, 3600352804, 4094571909, 275423344,
   430227734, 506948616, 659060556, 883997877, 958139571, 1322822218,
   1537002063, 1747873779, 1955562222, 2024104815, 2227730452, 2361852424,
   2428436474, 2756734187, 3204031479, 3329325298]

/-- Four big-endian bytes to 32-bit words. -/
def toWords : List Nat → List Nat
  | b0 :: b1 :: b2 :: b3 :: rest =>
      (b0 * 2 ^ 24 + b1 * 2 ^ 16 + b2 * 2 ^ 8 + b3) :: toWords rest
  | _ => []

/-- 32-bit word to four big-endian bytes. -/
def word4 (w : Nat) : List Nat :=
  [w / 2 ^ 24 % 256, w / 2 ^ 16 % 256, w / 2 ^ 8 % 256, w % 256]

/-- 64-bit big-endian length field of the SHA-256 padding. -/
def len64 (n : Nat) : List Nat :=
  [n / 2 ^ 56 % 256, n / 2 ^ 48 % 256, n / 2 ^ 40 % 256, n / 2 ^ 32 % 256,
   n / 2 ^ 24 % 256, n / 2 ^ 16 % 256, n / 2 ^ 8 % 256, n % 256]

/-- SHA-256 message padding: a one bit, zeros to 56 mod 64, the bit length. -/
def sha256Pad (msg : List Nat) : List Nat :=
  msg ++ [128] ++ List.replicate ((119 - msg.length % 64) % 64) 0 ++
    len64 (msg.length * 8)

/-- Message schedule extension by one word. -/
def extendW1 (ws : List Nat) : List Nat :=
  let w15 := ws.getD (ws.length - 15) 0
  let w2 := ws.getD (ws.length - 2) 0
  let s0 := rotr32 7 w15 ^^^ rotr32 18 w15 ^^^ w15 / 2 ^ 3
  let s1 := rotr32 17 w2 ^^^ rotr32 19 w2 ^^^ w2 / 2 ^ 10
  ws ++ [(ws.getD (ws.length - 16) 0 + s0 + ws.getD (ws.length - 7) 0 + s1) % 2 ^ 32]

/-- Message schedule extension, iterated. -/
def extendW : Nat → List Nat → List Nat
  | 0, ws => ws
  | n + 1, ws => extendW n (extendW1 ws)

/-- One SHA-256 compression round. -/
def sha256Round (st : Sha256State) (kw : Nat × Nat) : Sha256State :=
  let (a, b, c, d, e, f, g, h) := st
  let s1 := rotr32 6 e ^^^ rotr32 11 e ^^^ rotr32 25 e
  let ch := (e &&& f) ^^^ (not32 e &&& g)
  let t1 := (h + s1 + ch + kw.1 + kw.2) % 2 ^ 32
  let s0 := rotr32 2 a ^^^ rotr32 13 a ^^^ rotr32 22 a
  let mj := (a &&& b) ^^^ (a &&& c) ^^^ (b &&& c)
  let t2 := (s0 + mj) % 2 ^ 32
  ((t1 + t2) % 2 ^ 32, a, b, c, (d + t1) % 2 ^ 32, e, f, g)

/-- SHA-256 compression of one 64-byte chunk into the hash state. -/
def sha256Compress (st : Sha256State) (chunk : List Nat) : Sha256State :=
  let w := extendW 48 (toWords chunk)
  let r := (sha256K.zip w).foldl sha256Round st
  let (a, b, c, d, e, f, g, h) := st
  let (a2, b2, c2, d2, e2, f2, g2, h2) := r
  ((a + a2) % 2 ^ 32, (b + b2) % 2 ^ 32, (c + c2) % 2 ^ 32, (d + d2) % 2 ^ 32,
   (e + e2) % 2 ^ 32, (f + f2) % 2 ^ 32, (g + g2) % 2 ^ 32, (h + h2) % 2 ^ 32)

/-- 64-byte chunks of the padded message (fuel-driven structural
recursion; the fuel is the list length, enough for every 64-byte step). -/
def toChunksGo : Nat → List Nat → List (List Nat)
  | 0, _ => []
  | _, [] => []
  | fuel + 1, b :: l =>
      ((b :: l).take 64) :: toChunksGo fuel ((b :: l).drop 64)

/-- 64-byte chunks of the padded message. -/
def toChunks (l : List Nat) : List (List Nat) := toChunksGo l.length l

/-- SHA-256 of a byte sequence. -/
def sha256 (msg : List Nat) : List Nat :=
  let st := (toChunks (sha256Pad msg)).foldl sha256Compress
    (1779033703, 3144134277, 1013904242, 2773480762,
     1359893119, 2600822924, 528734635, 1541459225)
  let (a, b, c, d, e, f, g, h) := st
  word4 a ++ word4 b ++ word4 c ++ word4 d ++ word4 e ++ word4 f ++ word4 g ++ word4 h

theorem sha256_length (msg : List Nat) : (sha256 msg).length = 32 := by
  simp [sha256, word4]

theorem sha256_lt (msg : List Nat) : ∀ b ∈ sha256 msg, b < 256 := by
  intro b hb
  simp [sha256, word4] at hb
  rcases hb with rfl|rfl|rfl|rfl|rfl|rfl|rfl|rfl|rfl|rfl|rfl|rfl|rfl|rfl|rfl|rfl|
    rfl|rfl|rfl|rfl|rfl|rfl|rfl|rfl|rfl|rfl|rfl|rfl|rfl|rfl|rfl|rfl <;> omega

/-! ### Key derivation (derive_master_key of crypto.rs) -/

/-- derive_master_key of crypto.rs, with the interactively prompted master
secret as an explicit argument: SHA-256 of the UTF-8 bytes of the input,
copied as the 32-byte key. -/
def derive_master_key (input : String) : List Nat := sha256 (utf8Encode input)

/-- new of CryptoManager in crypto.rs: the manager whose master key is the
derived key; the block function parameter stands for the AES primitive. -/
def CryptoManager.new (E : List Nat → List Nat → List Nat)
    (input : String) : CryptoManager :=
  { E := E, master_key := derive_master_key input }

/-! ### Encrypted record store (src/storage.rs) -/

/-- Error kinds of the storage layer: the empty-store condition and the
(dead) wrong-key report of verify_master_key, the serde parse failure of
load, an inaccessible backing medium (keyring setup, entry creation or
write failure), and propagated cipher errors. -/
inductive StoreError where
  | emptyStore
  | incorrectMasterKey
  | corruptStore
  | mediumUnavailable
  | cryptoError (e : CryptoError)
deriving DecidableEq, Repr

/-- TokenDatabase of storage.rs: the name to encoded-envelope mapping.
The HashMap is modelled as an association list with unique keys; its
iteration order is the list order. -/
structure TokenDatabase where
  tokens : List (String × List Nat)
deriving DecidableEq, Repr

/-- HashMap::insert - replaces the binding of an existing key in place,
appends a new binding otherwise. -/
def insertToken : List (String × List Nat) → String → List Nat →
    List (String × List Nat)
  | [], name, v => [(name, v)]
  | (k, w) :: rest, name, v =>
      if k = name then (name, v) :: rest else (k, w) :: insertToken rest name v

/-- HashMap::get. -/
def lookupToken : List (String × List Nat) → String → Option (List Nat)
  | [], _ => none
  | (k, w) :: rest, name => if k = name then some w else lookupToken rest name

/-- HashMap::remove (key part). -/
def removeToken : List (String × List Nat) → String → List (String × List Nat)
  | [], _ => []
  | (k, w) :: rest, name => if k = name then rest else (k, w) :: removeToken rest name

/-- TokenStorage of storage.rs: the in-memory database, the cipher, and
the backing keyring entry, modelled as the last persisted document. -/
structure TokenStorage where
  database : TokenDatabase
  crypto_manager : CryptoManager
  medium : Option TokenDatabase

/-- State effect of a SUCCESSFUL save of storage.rs: the whole document is
serialized and written to the keyring entry, so the medium snapshot now
holds the document value (serialization of the external serde crate left
implicit). The fallibility of save - to_string_pretty and set_password
both propagate errors - is carried by saveWith below; store_token and
delete_token are studied here under succeeding writes. -/
def TokenStorage.save (st : TokenStorage) : TokenStorage :=
  { st with medium := some st.database }

/-- save of storage.rs with its failure path: the outcome of serializing
and writing (external serde and keyring calls) is the explicit first
argument; a failure surfaces as the medium-unavailable error and the
medium keeps its previous content, a success applies the save effect. -/
def TokenStorage.saveWith {δ : Type} (writeResult : Except δ Unit)
    (st : TokenStorage) : Except StoreError TokenStorage :=
  match writeResult with
  | .ok _ => .ok (TokenStorage.save st)
  | .error _ => .error .mediumUnavailable

/-- load of storage.rs: a successful read is parsed (any parse failure is
the CorruptStore condition); ANY read error leaves an empty database.
The external serde parse is the function argument, the keyring read
outcome the argument of type Except. -/
def TokenStorage.load {ε : Type} (parse : String → Option TokenDatabase)
    (readResult : Except ε String) : Except StoreError TokenDatabase :=
  match readResult with
  | .ok content =>
    match parse content with
    | some db => .ok db
    | none => .error .corruptStore
  | .error _ => .ok { tokens := [] }

/-- new of storage.rs: keyring backend setup and Entry::new (their
combined outcome is the entryResult argument; a failure aborts with the
medium-unavailable error), then key derivation, then load of the
document, then the fallible save writing it back. Construction can
therefore abort on the entry setup, on a parse failure inside load, or
on the write. -/
def TokenStorage.new {ε δ ζ : Type} (parse : String → Option TokenDatabase)
    (entryResult : Except ζ Unit) (readResult : Except ε String)
    (writeResult : Except δ Unit) (cm : CryptoManager) :
    Except StoreError TokenStorage :=
  match entryResult with
  | .error _ => .error .mediumUnavailable
  | .ok _ =>
    match TokenStorage.load parse readResult with
    | .error e => .error e
    | .ok db =>
        TokenStorage.saveWith writeResult
          { database := db, crypto_manager := cm, medium := none }

/-- store_token of storage.rs: encrypt, insert, save. The fresh nonce
drawn inside encrypt is the explicit last argument. -/
def TokenStorage.store_token (st : TokenStorage) (name : String)
    (token : List Nat) (nonce : List Nat) : TokenStorage :=
  TokenStorage.save
    { st with database :=
        { tokens := insertToken st.database.tokens name
            (st.crypto_manager.encrypt nonce token) } }

/-- get_token of storage.rs: absent name is Ok none; a present envelope is
decrypted, cipher errors propagate. The receiver is a shared borrow, so
the state is returned unchanged alongside the result. -/
def TokenStorage.get_token (st : TokenStorage) (name : String) :
    Except StoreError (Option (List Nat)) × TokenStorage :=
  match lookupToken st.database.tokens name with
  | some encrypted_token =>
    match st.crypto_manager.decrypt encrypted_token with
    | .ok decrypted_token => (.ok (some decrypted_token), st)
    | .error e => (.error (.cryptoError e), st)
  | none => (.ok none, st)

/-- verify_master_key of storage.rs: empty store is an error; otherwise
the first envelope of the map iteration is test-decrypted and the SUCCESS
FLAG is returned as a Bool - a decryption failure is Ok false, not an
error. The else branch reporting a wrong key is only reachable when the
iterator of a non-empty map yields nothing. -/
def TokenStorage.verify_master_key (st : TokenStorage) : Except StoreError Bool :=
  if st.database.tokens.isEmpty then .error .emptyStore
  else
    match st.database.tokens.head? with
    | some (_, encrypted_token) =>
        .ok (match st.crypto_manager.decrypt encrypted_token with
             | .ok _ => true
             | .error _ => false)
    | none => .error .incorrectMasterKey

/-- list_tokens of storage.rs: verify (result discarded by a wildcard
binding), then all names. -/
def TokenStorage.list_tokens (st : TokenStorage) : Except StoreError (List String) :=
  match st.verify_master_key with
  | .error e => .error e
  | .ok _ => .ok (st.database.tokens.map Prod.fst)

/-- delete_token of storage.rs: verify (result discarded by a wildcard
binding), remove, save when something was removed, return whether the
name was present. -/
def TokenStorage.delete_token (st : TokenStorage) (name : String) :
    Except StoreError (Bool × TokenStorage) :=
  match st.verify_master_key with
  | .error e => .error e
  | .ok _ =>
    if (lookupToken st.database.tokens name).isSome then
      .ok (true, TokenStorage.save
        { st with database := { tokens := removeToken st.database.tokens name } })
    else
      .ok (false, st)

instance {ε α : Type} [DecidableEq ε] [DecidableEq α] : DecidableEq (Except ε α) := by
  intro x y
  cases x with
  | ok a =>
    cases y with
    | ok b => exact if h : a = b then isTrue (by rw [h]) else isFalse (by simp [h])
    | error b => exact isFalse (by simp)
  | error a =>
    cases y with
    | ok b => exact isFalse (by simp)
    | error b => exact if h : a = b then isTrue (by rw [h]) else isFalse (by simp [h])

/-! ### Concrete instances used by witnesses and counterexamples -/

/-- Constant block function: every block output is 16 zero bytes. -/
def blockZero : List Nat → List Nat → List Nat := fun _ _ => List.replicate 16 0

/-- Key-revealing block function: the block output is the first 16 key
bytes, making the tag depend on the key. -/
def blockKey : List Nat → List Nat → List Nat := fun k _ => k.take 16

/-- The all-zero 256-bit key. -/
def keyZero : List Nat := List.replicate 32 0

/-- The all-one-bytes 256-bit key. -/
def keyOne : List Nat := List.replicate 32 1

/-- A fixed 12-byte nonce. -/
def nonceZero : List Nat := List.replicate 12 0

/-- A store holding one envelope produced under keyZero, opened with the
distinct master key keyOne. -/
def stWrongKey : TokenStorage :=
  { database := { tokens :=
      [("x", CryptoManager.encrypt ⟨blockKey, keyZero⟩ nonceZero [49])] },
    crypto_manager := { E := blockKey, master_key := keyOne },
    medium := some { tokens :=
      [("x", CryptoManager.encrypt ⟨blockKey, keyZero⟩ nonceZero [49])] } }

/-- An empty store. -/
def storageEmpty : TokenStorage :=
  { database := { tokens := [] },
    crypto_manager := { E := blockZero, master_key := keyZero },
    medium := none }

/-- A store holding one (not even decryptable) envelope. -/
def storageOne : TokenStorage :=
  { database := { tokens := [("a", [65])] },
    crypto_manager := { E := blockZero, master_key := keyZero },
    medium := none }

/-! ### The claims -/

/-- Claim C1: envelope cipher round-trip. For every block function of the
right shape, every 256-bit key, every nonce the encryptor may draw (12
bytes), and every plaintext (a valid UTF-8 byte sequence), decrypting the
blob produced by encrypt with the same key succeeds and returns the
plaintext. -/
theorem claim_C1_roundtrip (cm : CryptoManager) (nonce pt : List Nat)
    (hE : ∀ k b, (cm.E k b).length = 16)
    (_hkey : cm.master_key.length = 32)
    (hn12 : nonce.length = 12) (hnb : ∀ b ∈ nonce, b < 256)
    (hpt : ∀ b ∈ pt, b < 256) (hvalid : isValidUtf8 pt = true) :
    cm.decrypt (cm.encrypt nonce pt) = .ok pt :=
  decrypt_encrypt cm nonce pt hE hn12 hnb hpt hvalid

theorem claim_C1_roundtrip_witness :
    CryptoManager.decrypt ⟨blockZero, keyZero⟩
      (CryptoManager.encrypt ⟨blockZero, keyZero⟩ nonceZero [104, 105])
      = .ok [104, 105] :=
  claim_C1_roundtrip ⟨blockZero, keyZero⟩ nonceZero [104, 105]
    (fun _ _ => rfl) rfl rfl (by decide) (by decide) (by decide)

/-- Claim C2, behavior of the code at the failing input: with one envelope
produced under keyZero and the store opened under keyOne, the test
decryption fails with an authentication failure, yet verify_master_key
returns Ok false (not an error), and list_tokens and delete_token proceed:
the listing is returned and the entry is removed. The claim says the
failure is surfaced to the caller instead. -/
theorem claim_C2_code_behavior :
    (CryptoManager.decrypt ⟨blockKey, keyOne⟩
        (CryptoManager.encrypt ⟨blockKey, keyZero⟩ nonceZero [49])
      = .error .authenticationFailure) ∧
    stWrongKey.verify_master_key = .ok false ∧
    stWrongKey.list_tokens = .ok ["x"] ∧
    ((stWrongKey.delete_token "x").map (fun p => (p.1, p.2.database, p.2.medium))
      = .ok (true, { tokens := [] }, some { tokens := [] })) := by
  refine ⟨by decide, by decide, by decide, by decide⟩

/-- Claim C3 counterexample: after put of a and delete of a, the store is
empty again, and delete of the name missing on that store signals the
empty-store error instead of returning false as the claim states. -/
theorem claim_C3_counterexample :
    (((TokenStorage.store_token ⟨⟨[]⟩, ⟨blockZero, keyZero⟩, none⟩ "a" [49] nonceZero).delete_token
        "a").map (fun p => (p.1, p.2.database, p.2.medium))
      = .ok (true, { tokens := [] }, some { tokens := [] })) ∧
    ((TokenStorage.delete_token ⟨⟨[]⟩, ⟨blockZero, keyZero⟩, some ⟨[]⟩⟩ "missing").map
        (fun p => (p.1, p.2.database, p.2.medium))
      = .error .emptyStore) := by
  refine ⟨by decide, by decide⟩

/-- Claim C3 as amended: starting from an empty store, put of name a with
value 1 then get of a returns the value; delete of the name missing at
this point returns false without an error; delete of a returns true;
get of a on the resulting store returns none; and the final delete of the
name missing signals the empty-store error, the store being empty. -/
theorem claim_C3_crud (cm : CryptoManager) (n1 : List Nat)
    (hE : ∀ k b, (cm.E k b).length = 16)
    (hn12 : n1.length = 12) (hnb : ∀ b ∈ n1, b < 256) :
    ((TokenStorage.store_token ⟨⟨[]⟩, cm, none⟩ "a" [49] n1).get_token "a").1
        = .ok (some [49]) ∧
    (TokenStorage.store_token ⟨⟨[]⟩, cm, none⟩ "a" [49] n1).delete_token "missing"
        = .ok (false, TokenStorage.store_token ⟨⟨[]⟩, cm, none⟩ "a" [49] n1) ∧
    (TokenStorage.store_token ⟨⟨[]⟩, cm, none⟩ "a" [49] n1).delete_token "a"
        = .ok (true, ⟨⟨[]⟩, cm, some ⟨[]⟩⟩) ∧
    (TokenStorage.get_token ⟨⟨[]⟩, cm, some ⟨[]⟩⟩ "a").1 = .ok none ∧
    TokenStorage.delete_token ⟨⟨[]⟩, cm, some ⟨[]⟩⟩ "missing" = .error .emptyStore := by
  have hdec : cm.decrypt (cm.encrypt n1 [49]) = .ok [49] :=
    decrypt_encrypt cm n1 [49] hE hn12 hnb (by decide) (by decide)
  refine ⟨?_, ?_, ?_, ?_, ?_⟩ <;>
    simp [TokenStorage.store_token, TokenStorage.get_token, TokenStorage.delete_token,
      TokenStorage.verify_master_key, TokenStorage.save, TokenStorage.list_tokens,
      insertToken, lookupToken, removeToken, hdec]

theorem claim_C3_crud_witness :
    ((TokenStorage.store_token ⟨⟨[]⟩, ⟨blockZero, keyZero⟩, none⟩ "a" [49] nonceZero).get_token "a").1
        = .ok (some [49]) ∧
    (TokenStorage.store_token ⟨⟨[]⟩, ⟨blockZero, keyZero⟩, none⟩ "a" [49] nonceZero).delete_token "missing"
        = .ok (false, TokenStorage.store_token ⟨⟨[]⟩, ⟨blockZero, keyZero⟩, none⟩ "a" [49] nonceZero) ∧
    (TokenStorage.store_token ⟨⟨[]⟩, ⟨blockZero, keyZero⟩, none⟩ "a" [49] nonceZero).delete_token "a"
        = .ok (true, ⟨⟨[]⟩, ⟨blockZero, keyZero⟩, some ⟨[]⟩⟩) ∧
    (TokenStorage.get_token ⟨⟨[]⟩, ⟨blockZero, keyZero⟩, some ⟨[]⟩⟩ "a").1 = .ok none ∧
    TokenStorage.delete_token ⟨⟨[]⟩, ⟨blockZero, keyZero⟩, some ⟨[]⟩⟩ "missing"
        = .error .emptyStore :=
  claim_C3_crud ⟨blockZero, keyZero⟩ nonceZero (fun _ _ => rfl) rfl (by decide)

/-- Claim C4: on a store whose document has zero entries, list_tokens and
delete_token (for any name) both signal the empty-store error; no state
is produced, so no entry is removed. -/
theorem claim_C4_empty_store (st : TokenStorage) (name : String)
    (h : st.database.tokens = []) :
    st.list_tokens = .error .emptyStore ∧ st.delete_token name = .error .emptyStore := by
  have hv : st.verify_master_key = .error .emptyStore := by
    unfold TokenStorage.verify_master_key
    simp [h]
  constructor <;> simp [TokenStorage.list_tokens, TokenStorage.delete_token, hv]

theorem claim_C4_empty_store_witness :
    storageEmpty.list_tokens = .error .emptyStore ∧
    storageEmpty.delete_token "missing" = .error .emptyStore :=
  claim_C4_empty_store storageEmpty "missing" rfl

/-- Claim C6: for every key and every blob whose base64 decoding succeeds
with fewer than 12 bytes, decrypt signals the malformed-envelope error;
a blob decoding to 12 bytes or more never produces that error. -/
theorem claim_C6_min_length (cm : CryptoManager) (blob bytes : List Nat)
    (h : b64decode blob = some bytes) :
    (bytes.length < 12 → cm.decrypt blob = .error .malformedEnvelope) ∧
    (12 ≤ bytes.length → cm.decrypt blob ≠ .error .malformedEnvelope) := by
  constructor
  · intro hlt
    simp [CryptoManager.decrypt, h, hlt]
  · intro hge
    simp only [CryptoManager.decrypt, h]
    rw [if_neg (by omega)]
    cases haead : aeadDecrypt cm.E cm.master_key (bytes.take 12) (bytes.drop 12) with
    | none => simp
    | some pt =>
      cases hv : isValidUtf8 pt with
      | false => simp [hv]
      | true => simp [hv]

theorem claim_C6_min_length_witness :
    CryptoManager.decrypt ⟨blockZero, keyZero⟩ (b64encode (List.replicate 11 0))
      = .error .malformedEnvelope :=
  (claim_C6_min_length ⟨blockZero, keyZero⟩ (b64encode (List.replicate 11 0))
    (List.replicate 11 0) (by decide)).1 (by decide)

/-- Claim C7: for every master secret string, the derived master key is
the SHA-256 hash of its UTF-8 bytes, is exactly 32 bytes long, and is
placed unchanged as the AEAD key of the manager, so every envelope
operation runs directly under it. -/
theorem claim_C7_key_derivation (s : String) (E : List Nat → List Nat → List Nat) :
    derive_master_key s = sha256 (utf8Encode s) ∧
    (derive_master_key s).length = 32 ∧
    (CryptoManager.new E s).master_key = sha256 (utf8Encode s) ∧
    (∀ nonce pt, (CryptoManager.new E s).encrypt nonce pt
      = CryptoManager.encrypt { E := E, master_key := sha256 (utf8Encode s) } nonce pt) ∧
    (∀ blob, (CryptoManager.new E s).decrypt blob
      = CryptoManager.decrypt { E := E, master_key := sha256 (utf8Encode s) } blob) :=
  ⟨rfl, sha256_length (utf8Encode s), rfl, fun _ _ => rfl, fun _ => rfl⟩

/-- Claim C8: get_token leaves the in-memory document and the backing
medium unchanged, whether the name is absent, present and decryptable, or
present with a failing decryption. -/
theorem claim_C8_get_readonly (st : TokenStorage) (name : String) :
    (st.get_token name).2.database = st.database ∧
    (st.get_token name).2.medium = st.medium := by
  have h2 : (st.get_token name).2 = st := by
    unfold TokenStorage.get_token
    cases hl : lookupToken st.database.tokens name with
    | none => simp
    | some enc =>
      cases hd : st.crypto_manager.decrypt enc with
      | ok pt => simp [hd]
      | error e => simp [hd]
  rw [h2]
  exact ⟨rfl, rfl⟩

/-- Claim C9 counterexample: with an inaccessible medium both the read
and the write fail (and the parser at hand never fails). load swallows
the read failure and yields the empty document, yet construction aborts
with the medium-unavailable error from the failing post-load save - so
it is false that construction aborts only when a successfully read
document fails JSON parsing. -/
theorem claim_C9_counterexample :
    (TokenStorage.load (fun _ => some { tokens := [] })
        (Except.error () : Except Unit String) = .ok { tokens := [] }) ∧
    (TokenStorage.new (fun _ => some { tokens := [] })
        (Except.ok () : Except Unit Unit) (Except.error () : Except Unit String)
        (Except.error () : Except Unit Unit) ⟨blockZero, keyZero⟩
      = .error .mediumUnavailable) :=
  ⟨rfl, rfl⟩

/-- Claim C9 as amended: load never surfaces a read-side medium error -
any read failure whatsoever yields the empty document successfully, and
load itself fails only with the corrupt-store error, on a successfully
read document that fails parsing. Construction (new), however, can abort
beyond load: every new failure is either a load failure or the
medium-unavailable error (keyring entry setup or post-load write); and
when entry setup and write succeed, new fails exactly when load does. -/
theorem claim_C9_load_swallows_read_errors {ε δ ζ : Type}
    (parse : String → Option TokenDatabase) (entryResult : Except ζ Unit)
    (r : Except ε String) (w : Except δ Unit) :
    (∀ e, r = .error e → TokenStorage.load parse r = .ok { tokens := [] }) ∧
    (∀ err, TokenStorage.load parse r = .error err →
      err = .corruptStore ∧ ∃ content, r = .ok content ∧ parse content = none) ∧
    (∀ cm err, TokenStorage.new parse entryResult r w cm = .error err →
      TokenStorage.load parse r = .error err ∨ err = .mediumUnavailable) ∧
    (∀ cm err u v, entryResult = .ok u → w = .ok v →
      (TokenStorage.new parse entryResult r w cm = .error err ↔
        TokenStorage.load parse r = .error err)) := by
  refine ⟨?_, ?_, ?_, ?_⟩
  · intro e he
    subst he
    rfl
  · intro err herr
    cases r with
    | error e => simp [TokenStorage.load] at herr
    | ok content =>
      cases hp : parse content with
      | some db => simp [TokenStorage.load, hp] at herr
      | none =>
        simp [TokenStorage.load, hp] at herr
        exact ⟨herr.symm, content, rfl, hp⟩
  · intro cm err hnew
    cases entryResult with
    | error z => right; simpa [TokenStorage.new] using hnew.symm
    | ok u =>
      cases hload : TokenStorage.load parse r with
      | error e =>
        left
        simp only [TokenStorage.new, hload] at hnew
        have he : e = err := by simpa using hnew
        rw [he]
      | ok db =>
        cases w with
        | ok v => simp [TokenStorage.new, hload, TokenStorage.saveWith] at hnew
        | error d =>
          right
          simpa [TokenStorage.new, hload, TokenStorage.saveWith] using hnew.symm
  · intro cm err u v hu hv
    subst hu
    subst hv
    cases hload : TokenStorage.load parse r with
    | error e => simp [TokenStorage.new, hload]
    | ok db => simp [TokenStorage.new, hload, TokenStorage.saveWith]

theorem claim_C9_load_swallows_read_errors_witness :
    TokenStorage.load (fun _ => none) (Except.error () : Except Unit String)
        = .ok { tokens := [] } ∧
    (TokenStorage.new (fun _ => none) (Except.ok () : Except Unit Unit)
        (Except.error () : Except Unit String) (Except.ok () : Except Unit Unit)
        ⟨blockZero, keyZero⟩ = .error .corruptStore ↔
      TokenStorage.load (fun _ => none) (Except.error () : Except Unit String)
        = .error .corruptStore) :=
  ⟨(claim_C9_load_swallows_read_errors (fun _ => none)
      (Except.ok () : Except Unit Unit) (Except.error () : Except Unit String)
      (Except.ok () : Except Unit Unit)).1 () rfl,
   (claim_C9_load_swallows_read_errors (fun _ => none)
      (Except.ok () : Except Unit Unit) (Except.error () : Except Unit String)
      (Except.ok () : Except Unit Unit)).2.2.2
     ⟨blockZero, keyZero⟩ .corruptStore () () rfl rfl⟩

/-- Claim C10: when the token map is non-empty, the iteration always
yields a first entry, so verify_master_key never returns the
incorrect-master-key error of its else branch. -/
theorem claim_C10_dead_branch (st : TokenStorage)
    (h : st.database.tokens ≠ []) :
    st.verify_master_key ≠ .error .incorrectMasterKey := by
  unfold TokenStorage.verify_master_key
  cases hm : st.database.tokens with
  | nil => exact absurd hm h
  | cons p rest =>
    rcases p with ⟨k, v⟩
    simp [hm]

theorem claim_C10_dead_branch_witness :
    storageOne.verify_master_key ≠ .error .incorrectMasterKey :=
  claim_C10_dead_branch storageOne (by simp [storageOne])
